import Mathlib

/-!
Verification of the Tolerant Structural Comparator and Metrics Aggregator
(`src/utils/metrics-calculator.ts`).

JavaScript values flowing through the comparator are JSON-like: `null`,
`undefined`, booleans, numbers, strings, arrays and plain objects.  Numbers
are modelled as rationals (the inputs exercised by the specification are
exact decimals).  `JSON.parse` is a platform builtin, so the functions that
use it are parameterized over an arbitrary parser `String → Option JSValue`,
`none` standing for a parse that throws.
-/

inductive JSValue where
  | null
  | undefined
  | bool (b : Bool)
  | num (q : ℚ)
  | str (s : String)
  | arr (elems : List JSValue)
  | obj (entries : List (String × JSValue))

/-- JavaScript `typeof` tags, restricted to the value kinds in the model.
Note `typeof null` and `typeof` of an array are both `'object'`. -/
inductive JSType where
  | undefinedType
  | booleanType
  | numberType
  | stringType
  | objectType
deriving DecidableEq

def typeofJS : JSValue → JSType
  | .null => .objectType
  | .undefined => .undefinedType
  | .bool _ => .booleanType
  | .num _ => .numberType
  | .str _ => .stringType
  | .arr _ => .objectType
  | .obj _ => .objectType

/-- JavaScript strict equality `===`: structural on primitives; reference
equality on arrays and objects.  Two separately materialized composites are
never reference-equal (the comparator only ever receives freshly parsed or
separately constructed composites), so composites compare `false`. -/
def strictEq : JSValue → JSValue → Bool
  | .null, .null => true
  | .undefined, .undefined => true
  | .bool a, .bool b => a == b
  | .num a, .num b => a == b
  | .str a, .str b => a == b
  | _, _ => false

/-- JavaScript falsiness: `null`, `undefined`, `false`, `0` and `""` are
falsy; every other value in the model is truthy. -/
def falsy : JSValue → Bool
  | .null => true
  | .undefined => true
  | .bool b => !b
  | .num q => q == 0
  | .str s => s.isEmpty
  | _ => false

def isArrayJS : JSValue → Bool
  | .arr _ => true
  | _ => false

/-- The `path[path.length - 1] || 'root'` idiom: the last path segment, or
`"root"` when the path is empty (or its last segment is the empty string,
which is falsy). -/
def lastPathKey (path : List String) : String :=
  match path.getLast? with
  | some s => if s.isEmpty then ("root") else s
  | none => ("root")

/-- `Object.keys`: an object's own keys in insertion order; for an array,
the element index strings. -/
def jsKeys : JSValue → List String
  | .obj kvs => kvs.map Prod.fst
  | .arr es => (List.range es.length).map (fun i => toString i)
  | _ => []

/-- The JavaScript `key in value` test as used by the comparator's key-set
check (own enumerable keys; exotic non-index array properties such as
`length` are not modelled, no claim exercises them). -/
def jsHasProp (v : JSValue) (k : String) : Bool := (jsKeys v).contains k

/-- Property access `value[key]`, `undefined` when absent.  Numeric strings
index arrays, as in JavaScript. -/
def jsGet (v : JSValue) (k : String) : JSValue :=
  match v with
  | .obj kvs => (kvs.lookup k).getD JSValue.undefined
  | .arr es =>
      match k.toNat? with
      | some i => es.getD i JSValue.undefined
      | none => JSValue.undefined
  | _ => JSValue.undefined

/-- `calculateStringSimilarity`'s edit-distance core: the code fills the
classic dynamic-programming table for the Levenshtein recurrence
`track[j][i] = min(track[j][i-1]+1, track[j-1][i]+1, track[j-1][i-1]+indicator)`;
this is that recurrence written recursively. -/
def levDistance : List Char → List Char → Nat
  | [], s2 => s2.length
  | c1 :: s1, [] => (c1 :: s1).length
  | c1 :: s1, c2 :: s2 =>
      min (levDistance (c1 :: s1) s2 + 1)
        (min (levDistance s1 (c2 :: s2) + 1)
          (levDistance s1 s2 + (if c1 = c2 then 0 else 1)))
termination_by s1 s2 => s1.length + s2.length
decreasing_by all_goals simp <;> omega

/-- `MetricsCalculator.calculateStringSimilarity`: one minus the Levenshtein
distance normalized by the longer length.  (For two empty strings the code
would produce `0/0 = NaN`, but that call is unreachable: equal strings are
short-circuited by `expected === actual`; in ℚ the convention `0/0 = 0`
makes the value `1` there.) -/
def calculateStringSimilarity (s1 s2 : String) : ℚ :=
  1 - (levDistance s1.data s2.data : ℚ) / (max s1.length s2.length : ℚ)

/-- `MetricsCalculator.areNumbersClose`: within `max(0.1, 0.1·max(|n1|,|n2|))`. -/
def areNumbersClose (n1 n2 : ℚ) : Bool :=
  let relTolerance : ℚ := 0.1
  let absTolerance : ℚ := 0.1
  decide (|n1 - n2| ≤ max absTolerance (relTolerance * max |n1| |n2|))

/-- A single difference between expected and actual values
(`ValueDifference` in the source; `similarity := none` models an omitted
field). -/
structure ValueDifference where
  key : String
  expected : JSValue
  actual : JSValue
  path : List String
  similarity : Option ℚ

/-- A difference record as pushed by `deepCompare` at a given path. -/
def mkDiff (path : List String) (expected actual : JSValue) (similarity : Option ℚ) :
    ValueDifference :=
  { key := lastPathKey path, expected := expected, actual := actual,
    path := path, similarity := similarity }

mutual

/-- `MetricsCalculator.deepCompare`: deep comparison with path tracking and
tolerance for strings and numbers.  The JavaScript pushes onto a shared
`differences` array; here each call returns the list of differences it
pushes, in push order (the caller's accumulated array is the concatenation). -/
def deepCompare (expected actual : JSValue) (path : List String) :
    Bool × List ValueDifference :=
  -- Handle null/undefined cases
  if strictEq expected actual then (true, [])
  else if falsy expected || falsy actual then
    (false, [mkDiff path expected actual (some 0)])
  -- Handle different types
  else if typeofJS expected != typeofJS actual then
    (false, [mkDiff path expected actual (some 0)])
  else match expected, actual with
  -- Handle booleans - exact match required
  | .bool b1, .bool b2 =>
      if b1 == b2 then (true, []) else (false, [mkDiff path (.bool b1) (.bool b2) (some 0)])
  -- Handle numbers with tolerance
  | .num n1, .num n2 =>
      let isClose := areNumbersClose n1 n2
      let similarity : ℚ := 1 - min (|n1 - n2| / max |n1| |n2|) 1
      (decide (0 < similarity),
       if isClose then [] else [mkDiff path (.num n1) (.num n2) (some similarity)])
  -- Handle strings with similarity scoring
  | .str s1, .str s2 =>
      let similarity := calculateStringSimilarity s1 s2
      (decide (0 < similarity),
       if similarity < 1 then [mkDiff path (.str s1) (.str s2) (some similarity)] else [])
  -- Handle arrays - length must match exactly
  | .arr es, .arr as_ =>
      if es.length != as_.length then
        (false, [mkDiff path
          (.str (("Array(") ++ toString es.length ++ (")")))
          (.str (("Array(") ++ toString as_.length ++ (")")))
          (some ((min es.length as_.length : ℚ) / (max es.length as_.length : ℚ)))])
      else
        -- Compare all elements (`every` stops at the first failing element)
        deepCompareArr es as_ 0 path
  | e, a =>
      -- Handle objects - keys must match exactly.  The JavaScript guard is
      -- `typeof expected === 'object'`, which also admits an array facing a
      -- non-array object (its keys are then its index strings).
      if typeofJS e == JSType.objectType then
        let expectedKeys := jsKeys e
        let actualKeys := jsKeys a
        -- Check for extra or missing keys
        let missingKeys := expectedKeys.filter (fun k => !(jsHasProp a k))
        let extraKeys := actualKeys.filter (fun k => !(jsHasProp e k))
        if missingKeys.length > 0 || extraKeys.length > 0 then
          (false, [mkDiff path
            (.str (("Object(") ++ String.intercalate (", ") expectedKeys ++ (")")))
            (.str (("Object(") ++ String.intercalate (", ") actualKeys ++ (")")))
            (some (((expectedKeys.length : ℚ) - (missingKeys.length : ℚ)) /
              (max expectedKeys.length actualKeys.length : ℚ)))])
        else
          -- Compare all values (`every` over `Object.keys(expected)`)
          match e with
          | .obj kvs => deepCompareFields kvs a path
          | .arr es => deepCompareIdx es 0 a path
          | _ => (true, [])
            -- unreachable: a non-falsy object-typed value is an array or object;
            -- `every` over its empty key list would yield `true`
      else
        -- Handle other primitives
        if strictEq e a then (true, []) else (false, [mkDiff path e a (some 0)])

/-- Element-wise loop of the array branch:
`expected.every((item, index) => deepCompare(item, actual[index], ...))`.
Reached only with equal lengths; an exhausted `actual` yields `undefined`
as JavaScript indexing would. -/
def deepCompareArr : List JSValue → List JSValue → Nat → List String →
    Bool × List ValueDifference
  | [], _, _, _ => (true, [])
  | e :: es, a :: as_, i, path =>
      let r := deepCompare e a (path ++ [toString i])
      if r.1 then
        let r2 := deepCompareArr es as_ (i + 1) path
        (r2.1, r.2 ++ r2.2)
      else (false, r.2)
  | e :: es, [], i, path =>
      let r := deepCompare e JSValue.undefined (path ++ [toString i])
      if r.1 then
        let r2 := deepCompareArr es [] (i + 1) path
        (r2.1, r.2 ++ r2.2)
      else (false, r.2)

/-- Key-wise loop of the object branch when `expected` is an object:
`expectedKeys.every(key => deepCompare(expected[key], actual[key], ...))`.
Iterating the entries equals iterating `Object.keys(expected)` because
JavaScript object keys are unique. -/
def deepCompareFields : List (String × JSValue) → JSValue → List String →
    Bool × List ValueDifference
  | [], _, _ => (true, [])
  | (k, v) :: rest, actual, path =>
      let r := deepCompare v (jsGet actual k) (path ++ [k])
      if r.1 then
        let r2 := deepCompareFields rest actual path
        (r2.1, r.2 ++ r2.2)
      else (false, r.2)

/-- Key-wise loop of the object branch when `expected` is an array (mixed
array-versus-object comparison): its keys are the index strings. -/
def deepCompareIdx : List JSValue → Nat → JSValue → List String →
    Bool × List ValueDifference
  | [], _, _, _ => (true, [])
  | e :: es, i, actual, path =>
      let r := deepCompare e (jsGet actual (toString i)) (path ++ [toString i])
      if r.1 then
        let r2 := deepCompareIdx es (i + 1) actual path
        (r2.1, r.2 ++ r2.2)
      else (false, r.2)

end

/-- Result of comparing expected and actual responses (`ComparisonResult`);
`none` models an omitted (`undefined`) optional field. -/
structure ComparisonResult where
  isMatch : Bool
  differences : Option (List ValueDifference)
  matchedFields : Option (List String)
  missingFields : Option (List String)
  extraFields : Option (List String)

mutual

/-- `MetricsCalculator.getAllKeys`: all dotted key paths of an object
(including nested plain objects; array values are not recursed into, but an
array argument itself enumerates its index keys via `Object.entries`). -/
def getAllKeys (v : JSValue) (pre : String) : List String :=
  if falsy v || typeofJS v != JSType.objectType then []
  else
    match v with
    | .obj kvs => getAllKeysObj kvs pre
    | .arr es => getAllKeysArr es 0 pre
    | _ => []

/-- The `Object.entries(obj).flatMap` loop of `getAllKeys` for an object. -/
def getAllKeysObj : List (String × JSValue) → String → List String
  | [], _ => []
  | (k, value) :: rest, pre =>
      let currentKey := if pre.isEmpty then k else pre ++ (".") ++ k
      (if !falsy value && typeofJS value == JSType.objectType && !isArrayJS value then
        currentKey :: getAllKeys value currentKey
      else [currentKey]) ++ getAllKeysObj rest pre

/-- The `Object.entries(obj).flatMap` loop of `getAllKeys` for an array
(entries are index strings paired with elements). -/
def getAllKeysArr : List JSValue → Nat → String → List String
  | [], _, _ => []
  | value :: rest, i, pre =>
      let currentKey := if pre.isEmpty then toString i else pre ++ (".") ++ toString i
      (if !falsy value && typeofJS value == JSType.objectType && !isArrayJS value then
        currentKey :: getAllKeys value currentKey
      else [currentKey]) ++ getAllKeysArr rest (i + 1) pre

end

/-- `new Set(list)` spread back into an array: deduplication keeping the
first occurrence of each element, in order. -/
def jsSet (l : List String) : List String :=
  l.foldl (fun acc x => if acc.contains x then acc else acc ++ [x]) []

/-- `MetricsCalculator.compareResponses`.  `parse` stands for the
`JSON.parse` platform builtin (`none` = the parse throws, landing in the
`catch` block); non-string inputs are used as-is. -/
def compareResponses (parse : String → Option JSValue) (expected actual : JSValue) :
    ComparisonResult :=
  let eParsed := match expected with | .str s => parse s | v => some v
  let aParsed := match actual with | .str s => parse s | v => some v
  match eParsed, aParsed with
  | some expectedObj, some actualObj =>
      let r := deepCompare expectedObj actualObj []
      let expectedKeys := jsSet (getAllKeys expectedObj (""))
      let actualKeys := jsSet (getAllKeys actualObj (""))
      let matchedFields := expectedKeys.filter (fun k => actualKeys.contains k)
      let missingFields := expectedKeys.filter (fun k => !actualKeys.contains k)
      let extraFields := actualKeys.filter (fun k => !expectedKeys.contains k)
      { isMatch := r.1
        differences := if r.2.length > 0 then some r.2 else none
        matchedFields := some matchedFields
        missingFields := if missingFields.length > 0 then some missingFields else none
        extraFields := if extraFields.length > 0 then some extraFields else none }
  | _, _ =>
      { isMatch := false
        differences := some [⟨("parse_error"), expected, actual, [("root")], none⟩]
        matchedFields := none
        missingFields := none
        extraFields := none }

/-- `MetricsCalculator.getPercentile`: nearest-rank percentile.  (On an
empty array the JavaScript indexes at `-1` and yields `undefined`; here the
out-of-range lookup defaults to `0`.  No claim touches that case.) -/
def getPercentile (arr : List ℚ) (percentile : ℚ) : ℚ :=
  let sorted := arr.mergeSort (fun a b => decide (a ≤ b))
  let index : ℤ := ⌈(percentile / 100) * (arr.length : ℚ)⌉ - 1
  sorted.getD index.toNat 0

/-- A single test execution result (`TestResult`). -/
structure TestResult where
  isFinished : Bool
  isSuccess : Bool
  input : String
  expectedResponse : JSValue
  actualResponse : JSValue
  timeElapsed : ℚ
  cost : ℚ
  differences : Option (List ValueDifference)
  matchedFields : Option (List String)
  missingFields : Option (List String)
  extraFields : Option (List String)

/-- `MetricsCalculator.evaluateTestCase` (the `async` wrapper adds nothing:
the body is pure).  Total by construction: every input yields a
`TestResult`, mirroring the design property that no exception escapes. -/
def evaluateTestCase (parse : String → Option JSValue) (expected actual : JSValue)
    (timeElapsed cost : ℚ) (input : String) : TestResult :=
  let comparison := compareResponses parse expected actual
  { input := input
    expectedResponse := expected
    actualResponse := actual
    timeElapsed := timeElapsed
    cost := cost
    isFinished := true
    isSuccess := comparison.isMatch
    differences := comparison.differences
    matchedFields := comparison.matchedFields
    missingFields := comparison.missingFields
    extraFields := comparison.extraFields }

/-- Aggregated metrics (`MetricsResult`).  The JavaScript records
`fieldSuccessRates` and `errorDistribution` are modelled as association
lists in insertion order, and `mostFailedFields` as field/failure-rate
pairs. -/
structure MetricsResult where
  totalTests : Nat
  successfulTests : Nat
  failedTests : Nat
  averageTime : ℚ
  minTime : ℚ
  maxTime : ℚ
  medianTime : ℚ
  averageCost : ℚ
  totalCost : ℚ
  costPerSuccess : ℚ
  successRate : ℚ
  precision : ℚ
  «recall» : ℚ
  f1Score : ℚ
  fieldSuccessRates : List (String × ℚ)
  mostFailedFields : List (String × ℚ)
  errorDistribution : List (String × Nat)

/-- The per-field `{ success, total }` counter of `calculateMetrics`. -/
structure FieldCounts where
  success : Nat
  total : Nat
deriving DecidableEq

/-- `Map.set`: replace in place if the key exists (preserving order),
otherwise append. -/
def mapSet (m : List (String × FieldCounts)) (k : String) (v : FieldCounts) :
    List (String × FieldCounts) :=
  if m.any (fun p => p.1 == k) then
    m.map (fun p => if p.1 == k then (p.1, v) else p)
  else m ++ [(k, v)]

/-- One step of the `fieldCounts` accumulation for a single field:
`counts.success += result.isSuccess ? 1 : 0; counts.total += 1`
(`Map.get` defaulting to a fresh `{ success: 0, total: 0 }`). -/
def fieldBump (isSuccess : Bool) (m : List (String × FieldCounts)) (field : String) :
    List (String × FieldCounts) :=
  let counts := (m.lookup field).getD ⟨0, 0⟩
  mapSet m field ⟨counts.success + (if isSuccess then 1 else 0), counts.total + 1⟩

/-- The body of the `results.forEach` loop of `calculateMetrics`: skip a
case without `matchedFields`, otherwise bump every listed field. -/
def fieldCountsStep (m : List (String × FieldCounts)) (result : TestResult) :
    List (String × FieldCounts) :=
  match result.matchedFields with
  | none => m
  | some fields => fields.foldl (fieldBump result.isSuccess) m

/-- The `fieldCounts` accumulation of `calculateMetrics`: for every case and
every field in its `matchedFields`, bump `total`, and bump `success` when
the whole case succeeded. -/
def fieldCountsOf (results : List TestResult) : List (String × FieldCounts) :=
  results.foldl fieldCountsStep []

/-- The `errorDistribution` accumulation: tally `difference.key` over the
differences of unsuccessful cases (`acc[key] = (acc[key] || 0) + 1`,
object keys in insertion order). -/
def bumpKey (m : List (String × Nat)) (k : String) : List (String × Nat) :=
  if m.any (fun p => p.1 == k) then
    m.map (fun p => if p.1 == k then (p.1, p.2 + 1) else p)
  else m ++ [(k, 1)]

/-- `MetricsCalculator.calculateMetrics`.  `Math.min()`/`Math.max()` of an
empty spread would be `±Infinity` in JavaScript, which ℚ cannot represent;
the empty-batch values of `minTime`/`maxTime`/`medianTime` default to `0`
here (no claim touches them, and the spec calls the empty batch undefined
behaviour). -/
def calculateMetrics (results : List TestResult) : MetricsResult :=
  let totalTests := results.length
  let successfulTests := (results.filter (fun r => r.isSuccess)).length
  let failedTests := totalTests - successfulTests
  let times := (results.filter (fun r => r.isFinished)).map (fun r => r.timeElapsed)
  let costs := (results.filter (fun r => r.isFinished)).map (fun r => r.cost)
  let fieldCounts := fieldCountsOf results
  let fieldSuccessRates :=
    fieldCounts.map (fun p => (p.1, (p.2.success : ℚ) / (p.2.total : ℚ)))
  let mostFailedFields :=
    ((fieldCounts.map (fun p => (p.1, 1 - (p.2.success : ℚ) / (p.2.total : ℚ)))).mergeSort
      (fun a b => decide (b.2 ≤ a.2))).take 5
  let errorDistribution :=
    (results.filter (fun r => !r.isSuccess && r.differences.isSome)).foldl
      (fun acc result => (result.differences.getD []).foldl (fun acc d => bumpKey acc d.key) acc)
      []
  { totalTests := totalTests
    successfulTests := successfulTests
    failedTests := failedTests
    averageTime := times.sum / (totalTests : ℚ)
    minTime := match times with | [] => 0 | t :: ts => ts.foldl min t
    maxTime := match times with | [] => 0 | t :: ts => ts.foldl max t
    medianTime := getPercentile times 50
    averageCost := costs.sum / (totalTests : ℚ)
    totalCost := costs.sum
    costPerSuccess := if successfulTests != 0 then costs.sum / (successfulTests : ℚ) else 0
    successRate := (successfulTests : ℚ) / (totalTests : ℚ)
    precision := (successfulTests : ℚ) / (totalTests : ℚ)
    «recall» := (successfulTests : ℚ) / (totalTests : ℚ)
    f1Score :=
      if successfulTests != 0 then
        (2 * ((successfulTests : ℚ) / (totalTests : ℚ)) * ((successfulTests : ℚ) / (totalTests : ℚ))) /
          (((successfulTests : ℚ) / (totalTests : ℚ)) + ((successfulTests : ℚ) / (totalTests : ℚ)))
      else 0
    fieldSuccessRates := fieldSuccessRates
    mostFailedFields := mostFailedFields
    errorDistribution := errorDistribution }

/-- The C9 invariant: every difference in a list whose `similarity` field
is present carries a value in the closed interval `[0, 1]`. -/
def simOk (ds : List ValueDifference) : Prop :=
  ∀ d ∈ ds, ∀ q : ℚ, d.similarity = some q → 0 ≤ q ∧ q ≤ 1

/-- A concrete test-case fixture: a `TestResult` as the external runner
would hand to `calculateMetrics` (comparison payloads empty). -/
def mkCase (isFinished isSuccess : Bool) (timeElapsed cost : ℚ)
    (matchedFields : Option (List String)) : TestResult :=
  { isFinished := isFinished, isSuccess := isSuccess, input := (""),
    expectedResponse := JSValue.null, actualResponse := JSValue.null,
    timeElapsed := timeElapsed, cost := cost, differences := none,
    matchedFields := matchedFields, missingFields := none, extraFields := none }

/-! ### Helper lemmas -/

theorem strictEq_eq_true_falsy {e a : JSValue} (h : strictEq e a = true) :
    falsy e = falsy a := by
  cases e <;> cases a <;> simp_all [strictEq, falsy]

theorem levDistance_nil_right (l : List Char) : levDistance l [] = l.length := by
  cases l <;> simp [levDistance]

theorem levDistance_self (l : List Char) : levDistance l l = 0 := by
  induction l with
  | nil => simp [levDistance]
  | cons c l ih => simp [levDistance, ih]

theorem levDistance_le (s1 s2 : List Char) :
    levDistance s1 s2 ≤ max s1.length s2.length := by
  induction s1 generalizing s2 with
  | nil => simp [levDistance]
  | cons c1 s1 ih =>
      cases s2 with
      | nil => simp [levDistance_nil_right]
      | cons c2 s2 =>
          have h3 : levDistance (c1 :: s1) (c2 :: s2) ≤
              levDistance s1 s2 + (if c1 = c2 then 0 else 1) := by
            rw [levDistance]
            exact le_trans (min_le_right _ _) (min_le_right _ _)
          have := ih s2
          simp only [List.length_cons]
          split at h3 <;> omega

theorem calculateStringSimilarity_self (s : String) :
    calculateStringSimilarity s s = 1 := by
  simp [calculateStringSimilarity, levDistance_self]

theorem calculateStringSimilarity_nil_left {s2 : String} (h : s2.length ≠ 0) :
    calculateStringSimilarity ("") s2 = 0 := by
  have h2 : levDistance (("" : String)).data s2.data = s2.length := by
    show levDistance [] s2.data = s2.length
    rw [levDistance]
    rfl
  have h0 : (("" : String)).length = 0 := rfl
  unfold calculateStringSimilarity
  rw [h2, h0]
  have hpos : (0 : ℚ) < (s2.length : ℚ) := by exact_mod_cast Nat.pos_of_ne_zero h
  rw [Nat.cast_zero, max_eq_right (le_of_lt hpos), div_self (ne_of_gt hpos)]
  ring

theorem calculateStringSimilarity_nil_right {s1 : String} (h : s1.length ≠ 0) :
    calculateStringSimilarity s1 ("") = 0 := by
  have h2 : levDistance s1.data (("" : String)).data = s1.length := by
    show levDistance s1.data [] = s1.length
    rw [levDistance_nil_right]
    rfl
  have h0 : (("" : String)).length = 0 := rfl
  unfold calculateStringSimilarity
  rw [h2, h0]
  have hpos : (0 : ℚ) < (s1.length : ℚ) := by exact_mod_cast Nat.pos_of_ne_zero h
  rw [Nat.cast_zero, max_eq_left (le_of_lt hpos), div_self (ne_of_gt hpos)]
  ring

theorem calculateStringSimilarity_mem (s1 s2 : String) :
    0 ≤ calculateStringSimilarity s1 s2 ∧ calculateStringSimilarity s1 s2 ≤ 1 := by
  unfold calculateStringSimilarity
  rcases Nat.eq_zero_or_pos (max s1.length s2.length) with h | h
  · have h1 : s1.length = 0 := by omega
    have h2 : s2.length = 0 := by omega
    rw [h1, h2]
    norm_num
  · have hle : (levDistance s1.data s2.data : ℚ) ≤ (max s1.length s2.length : ℚ) := by
      have := levDistance_le s1.data s2.data
      have hl1 : s1.data.length = s1.length := rfl
      have hl2 : s2.data.length = s2.length := rfl
      rw [hl1, hl2] at this
      exact_mod_cast this
    have hpos : (0 : ℚ) < (max s1.length s2.length : ℚ) := by exact_mod_cast h
    constructor
    · have : (levDistance s1.data s2.data : ℚ) / (max s1.length s2.length : ℚ) ≤ 1 :=
        (div_le_one hpos).mpr hle
      linarith
    · have : 0 ≤ (levDistance s1.data s2.data : ℚ) / (max s1.length s2.length : ℚ) :=
        div_nonneg (by positivity) (le_of_lt hpos)
      linarith

/-! ### C1: numeric tolerance boundary -/

/-- C1 counterexample: the claim says `compare(100, 112)` is not a match,
but the number branch *returns* `similarity > 0`, and the residual
similarity `1 - 12/112 = 25/28` is positive, so `deepCompare` reports a
match (a "soft pass") even though the pair exceeds both tolerances
(`areNumbersClose` is `false` and a difference is recorded). -/
theorem c1_counterexample :
    areNumbersClose 100 112 = false ∧
    (deepCompare (JSValue.num 100) (JSValue.num 112) []).1 = true := by
  constructor
  · norm_num [areNumbersClose]
  · simp only [deepCompare, strictEq, falsy, typeofJS]
    norm_num [min_def]

/-- C1 amended: `compare(100, 109)` is within tolerance and matches with no
difference recorded; `compare(100, 112)` exceeds the tolerance, so a
difference with similarity `25/28` is recorded, but the comparison still
*returns* a match because the pass/fail signal is `similarity > 0`. -/
theorem c1_amended :
    deepCompare (JSValue.num 100) (JSValue.num 109) [] = (true, []) ∧
    deepCompare (JSValue.num 100) (JSValue.num 112) [] =
      (true, [⟨("root"), JSValue.num 100, JSValue.num 112, [], some (25/28)⟩]) := by
  constructor
  · simp only [deepCompare, strictEq, falsy, typeofJS]
    norm_num [areNumbersClose, min_def]
  · simp only [deepCompare, strictEq, falsy, typeofJS]
    norm_num [areNumbersClose, min_def, mkDiff, lastPathKey]

/-! ### C10: the falsy check precedes every type-specific branch -/

/-- C10: whenever exactly one side is falsy (`0`, `""`, `false`, `null`,
`undefined`) and the other is truthy, `deepCompare` fails immediately with a
single similarity-`0` difference — the type-specific branches (and with
them the numeric tolerance) are never consulted. -/
theorem c10_falsy_short_circuit (expected actual : JSValue) (path : List String)
    (h : falsy expected ≠ falsy actual) :
    deepCompare expected actual path =
      (false, [mkDiff path expected actual (some 0)]) := by
  have hs : strictEq expected actual = false := by
    cases hse : strictEq expected actual
    · rfl
    · exact absurd (strictEq_eq_true_falsy hse) h
  have hf : (falsy expected || falsy actual) = true := by
    cases hfe : falsy expected <;> cases hfa : falsy actual <;> simp_all
  rw [deepCompare.eq_def, hs, hf]
  rfl

/-- C10 witness: `compare(0, 0.05)` fails with similarity `0` although the
pair is within the absolute tolerance (`areNumbersClose 0 0.05` holds). -/
theorem c10_witness :
    areNumbersClose 0 0.05 = true ∧
    deepCompare (JSValue.num 0) (JSValue.num 0.05) [] =
      (false, [⟨("root"), JSValue.num 0, JSValue.num 0.05, [], some 0⟩]) := by
  constructor
  · norm_num [areNumbersClose, abs_of_nonneg]
  · have := c10_falsy_short_circuit (JSValue.num 0) (JSValue.num 0.05) []
      (by norm_num [falsy])
    simpa [mkDiff, lastPathKey] using this

/-! ### C5: array length mismatch is fatal -/

/-- C5: comparing arrays of different lengths records exactly one difference
with `"Array(n)"` placeholders and similarity `min(length)/max(length)`,
returns no-match, and performs no per-element recursion (the difference
list is exactly that single entry). -/
theorem c5_array_length_mismatch (es as_ : List JSValue) (path : List String)
    (h : es.length ≠ as_.length) :
    deepCompare (JSValue.arr es) (JSValue.arr as_) path =
      (false, [mkDiff path
        (JSValue.str (("Array(") ++ toString es.length ++ (")")))
        (JSValue.str (("Array(") ++ toString as_.length ++ (")")))
        (some ((min es.length as_.length : ℚ) / (max es.length as_.length : ℚ)))]) := by
  rw [deepCompare.eq_def]
  simp [strictEq, falsy, typeofJS, h]

/-- C5 witness: `compare([1,2,3], [1,2])` yields no-match and the single
difference `Array(3)` versus `Array(2)` with similarity `2/3`. -/
theorem c5_witness :
    deepCompare (JSValue.arr [JSValue.num 1, JSValue.num 2, JSValue.num 3])
        (JSValue.arr [JSValue.num 1, JSValue.num 2]) [] =
      (false, [⟨("root"), JSValue.str ("Array(3)"), JSValue.str ("Array(2)"), [],
        some (2/3)⟩]) := by
  rw [c5_array_length_mismatch [JSValue.num 1, JSValue.num 2, JSValue.num 3]
    [JSValue.num 1, JSValue.num 2] [] (by simp)]
  norm_num [mkDiff, lastPathKey, min_def, max_def]
  exact ⟨rfl, rfl⟩

/-! ### C6: object key-set mismatch is fatal -/

/-- C6: comparing two objects whose key sets disagree (some expected key
missing from `actual`, or some actual key absent from `expected`) records
exactly one difference summarizing both key lists, with similarity
`(|expectedKeys| - |missingKeys|) / max(|expectedKeys|, |actualKeys|)`,
returns no-match, and never recurses into any shared key's value (the
difference list is exactly that single summary entry). -/
theorem c6_object_key_mismatch (ekvs akvs : List (String × JSValue)) (path : List String)
    (h : ((ekvs.map Prod.fst).filter (fun k => !jsHasProp (JSValue.obj akvs) k)).length > 0 ∨
         ((akvs.map Prod.fst).filter (fun k => !jsHasProp (JSValue.obj ekvs) k)).length > 0) :
    deepCompare (JSValue.obj ekvs) (JSValue.obj akvs) path =
      (false, [mkDiff path
        (JSValue.str (("Object(") ++ String.intercalate (", ") (ekvs.map Prod.fst) ++ (")")))
        (JSValue.str (("Object(") ++ String.intercalate (", ") (akvs.map Prod.fst) ++ (")")))
        (some ((((ekvs.map Prod.fst).length : ℚ) -
            ((((ekvs.map Prod.fst).filter (fun k => !jsHasProp (JSValue.obj akvs) k)).length : ℚ))) /
          (max (ekvs.map Prod.fst).length (akvs.map Prod.fst).length : ℚ)))]) := by
  rw [deepCompare.eq_def]
  rcases h with h | h <;> simp [strictEq, falsy, typeofJS, jsKeys, h]

/-- C6 witness: `compare({a:1,b:2}, {a:1,c:2})` yields the fatal single
difference `Object(a, b)` versus `Object(a, c)` with similarity `1/2` and
no recursion into the shared key `a`. -/
theorem c6_witness :
    deepCompare (JSValue.obj [(("a"), JSValue.num 1), (("b"), JSValue.num 2)])
        (JSValue.obj [(("a"), JSValue.num 1), (("c"), JSValue.num 2)]) [] =
      (false, [⟨("root"), JSValue.str ("Object(a, b)"), JSValue.str ("Object(a, c)"), [],
        some (1/2)⟩]) := by
  rw [c6_object_key_mismatch [(("a"), JSValue.num 1), (("b"), JSValue.num 2)]
    [(("a"), JSValue.num 1), (("c"), JSValue.num 2)] []
    (by simp [jsHasProp, jsKeys])]
  norm_num [mkDiff, lastPathKey, jsHasProp, jsKeys, max_def]
  refine ⟨rfl, rfl, ?_⟩
  rw [show (List.filter (fun k => !decide (k = ("a")) && !decide (k = ("c"))) [("b")]).length = 1
    from rfl]
  norm_num

/-- An auxiliary fact: a string has length zero exactly when it is empty. -/
theorem string_length_eq_zero_iff (s : String) : s.length = 0 ↔ s = ("") := by
  cases s with
  | mk data =>
      constructor
      · intro h
        have hd : data = [] := List.length_eq_zero.mp h
        subst hd
        rfl
      · intro h
        rw [h]
        rfl

/-- A nonempty string is truthy. -/
theorem falsy_str_false {s : String} (h : s ≠ ("")) : falsy (JSValue.str s) = false := by
  show s.isEmpty = false
  rw [Bool.eq_false_iff]
  intro hempty
  exact h ((String.isEmpty_iff s).mp hempty)

/-! ### C4: string comparison via normalized Levenshtein similarity -/

/-- C4: for any two strings, `deepCompare` returns pass exactly when the
similarity `1 - levenshtein/maxLength` is strictly positive and records a
difference carrying that similarity exactly when it is below `1`;
consequently `compare("cat","hat")` passes (similarity `2/3`) while still
recording a difference, and `compare("abc","xyz")` fails with similarity
`0`. -/
theorem c4_string_similarity :
    (∀ (s1 s2 : String) (path : List String),
      deepCompare (JSValue.str s1) (JSValue.str s2) path =
        (decide (0 < calculateStringSimilarity s1 s2),
         if calculateStringSimilarity s1 s2 < 1 then
           [mkDiff path (JSValue.str s1) (JSValue.str s2)
             (some (calculateStringSimilarity s1 s2))]
         else [])) ∧
    deepCompare (JSValue.str ("cat")) (JSValue.str ("hat")) [] =
      (true, [⟨("root"), JSValue.str ("cat"), JSValue.str ("hat"), [], some (2/3)⟩]) ∧
    deepCompare (JSValue.str ("abc")) (JSValue.str ("xyz")) [] =
      (false, [⟨("root"), JSValue.str ("abc"), JSValue.str ("xyz"), [], some 0⟩]) := by
  have hgen : ∀ (s1 s2 : String) (path : List String),
      deepCompare (JSValue.str s1) (JSValue.str s2) path =
        (decide (0 < calculateStringSimilarity s1 s2),
         if calculateStringSimilarity s1 s2 < 1 then
           [mkDiff path (JSValue.str s1) (JSValue.str s2)
             (some (calculateStringSimilarity s1 s2))]
         else []) := by
    intro s1 s2 path
    by_cases heq : s1 = s2
    · subst heq
      rw [deepCompare.eq_def]
      have h1 : calculateStringSimilarity s1 s1 = 1 := calculateStringSimilarity_self s1
      simp [strictEq, h1]
    · by_cases he1 : s1 = ("")
      · subst he1
        have hne : s2.length ≠ 0 := by
          intro h0
          exact heq ((string_length_eq_zero_iff s2).mp h0).symm
        have h0 : calculateStringSimilarity ("") s2 = 0 :=
          calculateStringSimilarity_nil_left hne
        rw [deepCompare.eq_def]
        have hfe : falsy (JSValue.str ("")) = true := rfl
        simp [strictEq, heq, hfe, h0]
      · by_cases he2 : s2 = ("")
        · subst he2
          have hne : s1.length ≠ 0 := by
            intro h0
            exact he1 ((string_length_eq_zero_iff s1).mp h0)
          have h0 : calculateStringSimilarity s1 ("") = 0 :=
            calculateStringSimilarity_nil_right hne
          rw [deepCompare.eq_def]
          simp [strictEq, heq, falsy_str_false he1, h0]
        · rw [deepCompare.eq_def]
          simp [strictEq, heq, falsy_str_false he1, falsy_str_false he2, typeofJS]
  refine ⟨hgen, ?_, ?_⟩
  · have hsim : calculateStringSimilarity ("cat") ("hat") = 2/3 := by
      have hl : levDistance (("cat" : String)).data (("hat" : String)).data = 1 := by
        simp [levDistance]
      have hc : (("cat" : String)).length = 3 := rfl
      have hh : (("hat" : String)).length = 3 := rfl
      unfold calculateStringSimilarity
      rw [hl, hc, hh, max_self]
      norm_num
    rw [hgen ("cat") ("hat") [], hsim]
    norm_num [mkDiff, lastPathKey]
  · have hsim : calculateStringSimilarity ("abc") ("xyz") = 0 := by
      have hl : levDistance (("abc" : String)).data (("xyz" : String)).data = 3 := by
        simp [levDistance]
      have ha : (("abc" : String)).length = 3 := rfl
      have hx : (("xyz" : String)).length = 3 := rfl
      unfold calculateStringSimilarity
      rw [hl, ha, hx, max_self]
      norm_num
    rw [hgen ("abc") ("xyz") [], hsim]
    norm_num [mkDiff, lastPathKey]

/-! ### C7: precision, recall and f1Score all collapse to successRate -/

/-- C7: in every `MetricsResult`, `precision` and `recall` equal
`successRate = successfulTests/totalTests`, and `f1Score` — computed as the
harmonic mean of two copies of `successRate` — equals `successRate` exactly
whenever `successfulTests > 0` and `0` when `successfulTests = 0`; in
particular a batch of 3 successes out of 4 cases has all four accuracy
numbers equal to `3/4`. -/
theorem c7_accuracy_collapse :
    (∀ results : List TestResult,
      (calculateMetrics results).precision = (calculateMetrics results).successRate ∧
      (calculateMetrics results).«recall» = (calculateMetrics results).successRate ∧
      (calculateMetrics results).f1Score =
        (if (calculateMetrics results).successfulTests = 0 then 0
         else (calculateMetrics results).successRate)) ∧
    ((calculateMetrics [mkCase true true 1 1 none, mkCase true true 1 1 none,
        mkCase true true 1 1 none, mkCase true false 1 1 none]).successRate = 3/4 ∧
     (calculateMetrics [mkCase true true 1 1 none, mkCase true true 1 1 none,
        mkCase true true 1 1 none, mkCase true false 1 1 none]).precision = 3/4 ∧
     (calculateMetrics [mkCase true true 1 1 none, mkCase true true 1 1 none,
        mkCase true true 1 1 none, mkCase true false 1 1 none]).«recall» = 3/4 ∧
     (calculateMetrics [mkCase true true 1 1 none, mkCase true true 1 1 none,
        mkCase true true 1 1 none, mkCase true false 1 1 none]).f1Score = 3/4) := by
  have hgen : ∀ results : List TestResult,
      (calculateMetrics results).precision = (calculateMetrics results).successRate ∧
      (calculateMetrics results).«recall» = (calculateMetrics results).successRate ∧
      (calculateMetrics results).f1Score =
        (if (calculateMetrics results).successfulTests = 0 then 0
         else (calculateMetrics results).successRate) := by
    intro results
    refine ⟨rfl, rfl, ?_⟩
    have hst : (calculateMetrics results).successfulTests =
        (results.filter (fun r => r.isSuccess)).length := rfl
    have hsr : (calculateMetrics results).successRate =
        ((results.filter (fun r => r.isSuccess)).length : ℚ) / (results.length : ℚ) := rfl
    have hf1 : (calculateMetrics results).f1Score =
        (if ((results.filter (fun r => r.isSuccess)).length != 0) = true then
          (2 * (((results.filter (fun r => r.isSuccess)).length : ℚ) / (results.length : ℚ)) *
            (((results.filter (fun r => r.isSuccess)).length : ℚ) / (results.length : ℚ))) /
          ((((results.filter (fun r => r.isSuccess)).length : ℚ) / (results.length : ℚ)) +
            (((results.filter (fun r => r.isSuccess)).length : ℚ) / (results.length : ℚ)))
        else 0) := rfl
    rw [hst, hsr, hf1]
    rcases Nat.eq_zero_or_pos (results.filter (fun r => r.isSuccess)).length with hs | hs
    · simp [hs]
    · have hsne : (results.filter (fun r => r.isSuccess)).length ≠ 0 := Nat.pos_iff_ne_zero.mp hs
      have htpos : 0 < results.length :=
        lt_of_lt_of_le hs (List.length_filter_le _ _)
      rw [if_pos (by simpa using hsne), if_neg hsne]
      set r := ((results.filter (fun r => r.isSuccess)).length : ℚ) / (results.length : ℚ) with hrdef
      have hrpos : (0 : ℚ) < r := by
        rw [hrdef]
        apply div_pos
        · exact_mod_cast hs
        · exact_mod_cast htpos
      show (2 * r * r) / (r + r) = r
      rw [show r + r = 2 * r by ring, show 2 * r * r = r * (2 * r) by ring,
        mul_div_assoc, div_self (by positivity), mul_one]
  refine ⟨hgen, ?_⟩
  have h3 := (hgen [mkCase true true 1 1 none, mkCase true true 1 1 none,
      mkCase true true 1 1 none, mkCase true false 1 1 none]).2.2
  have hsr : (calculateMetrics [mkCase true true 1 1 none, mkCase true true 1 1 none,
      mkCase true true 1 1 none, mkCase true false 1 1 none]).successRate = 3/4 := by
    show ((([mkCase true true 1 1 none, mkCase true true 1 1 none,
      mkCase true true 1 1 none, mkCase true false 1 1 none].filter
        (fun r => r.isSuccess)).length : ℚ) / (4 : ℕ) : ℚ) = 3/4
    norm_num [mkCase]
  have hst : (calculateMetrics [mkCase true true 1 1 none, mkCase true true 1 1 none,
      mkCase true true 1 1 none, mkCase true false 1 1 none]).successfulTests = 3 := by
    show ([mkCase true true 1 1 none, mkCase true true 1 1 none,
      mkCase true true 1 1 none, mkCase true false 1 1 none].filter
        (fun r => r.isSuccess)).length = 3
    norm_num [mkCase]
  refine ⟨hsr, hsr, hsr, ?_⟩
  rw [h3, hst]
  simp [hsr]

/-! ### C2: averages divide finished-case sums by the total batch size -/

/-- C2 counterexample: for a batch of one finished case (time 10, cost 4)
and one unfinished case, the claim predicts `averageTime = 10/1 = 10`
(finished sum over finished count), but the code divides the finished sum
by `totalTests` and returns `5`. -/
theorem c2_counterexample :
    (calculateMetrics [mkCase true true 10 4 none, mkCase false false 6 2 none]).averageTime = 5 ∧
    ((([mkCase true true 10 4 none, mkCase false false 6 2 none].filter
        (fun r => r.isFinished)).map (fun r => r.timeElapsed)).sum /
      ((([mkCase true true 10 4 none, mkCase false false 6 2 none].filter
        (fun r => r.isFinished)).length : ℚ))) = 10 ∧
    (5 : ℚ) ≠ 10 := by
  refine ⟨?_, ?_, by norm_num⟩
  · show ((([mkCase true true 10 4 none, mkCase false false 6 2 none].filter
        (fun r => r.isFinished)).map (fun r => r.timeElapsed)).sum / ((2 : ℕ) : ℚ)) = 5
    norm_num [mkCase]
  · norm_num [mkCase]

/-- C2 amended: `averageTime` is the sum of `timeElapsed` over the cases
with `isFinished = true` divided by `totalTests` (the whole batch size,
finished or not), and likewise `averageCost`; so unfinished cases are
excluded from the numerator only, and appending an unfinished case lowers
the averages by enlarging the denominator. -/
theorem c2_amended (results : List TestResult) (u : TestResult)
    (hu : u.isFinished = false) :
    (calculateMetrics results).averageTime =
      ((results.filter (fun r => r.isFinished)).map (fun r => r.timeElapsed)).sum /
        (results.length : ℚ) ∧
    (calculateMetrics results).averageCost =
      ((results.filter (fun r => r.isFinished)).map (fun r => r.cost)).sum /
        (results.length : ℚ) ∧
    (calculateMetrics (results ++ [u])).averageTime =
      ((results.filter (fun r => r.isFinished)).map (fun r => r.timeElapsed)).sum /
        ((results.length : ℚ) + 1) ∧
    (calculateMetrics (results ++ [u])).averageCost =
      ((results.filter (fun r => r.isFinished)).map (fun r => r.cost)).sum /
        ((results.length : ℚ) + 1) := by
  refine ⟨rfl, rfl, ?_, ?_⟩
  · show (((results ++ [u]).filter (fun r => r.isFinished)).map (fun r => r.timeElapsed)).sum /
        (((results ++ [u]).length : ℕ) : ℚ) = _
    rw [List.filter_append, List.length_append]
    simp [hu]
  · show (((results ++ [u]).filter (fun r => r.isFinished)).map (fun r => r.cost)).sum /
        (((results ++ [u]).length : ℕ) : ℚ) = _
    rw [List.filter_append, List.length_append]
    simp [hu]

/-- C2 witness: with one finished case (time 10, cost 4) and one appended
unfinished case, the averages are `10/2 = 5` and `4/2 = 2`. -/
theorem c2_witness :
    (mkCase false false 6 2 none).isFinished = false ∧
    (calculateMetrics ([mkCase true true 10 4 none] ++ [mkCase false false 6 2 none])).averageTime =
      5 ∧
    (calculateMetrics ([mkCase true true 10 4 none] ++ [mkCase false false 6 2 none])).averageCost =
      2 := by
  have h := c2_amended [mkCase true true 10 4 none] (mkCase false false 6 2 none) rfl
  refine ⟨rfl, ?_, ?_⟩
  · rw [h.2.2.1]
    norm_num [mkCase]
  · rw [h.2.2.2]
    norm_num [mkCase]

/-! ### C3: unparseable strings degrade to a parse_error difference -/

/-- C3: `evaluateTestCase` is total by construction (the embedding is a
function: every input yields a `TestResult`, never an exception); and
whenever either side is a string the parser rejects, the result has
`isSuccess = false` and exactly one difference, whose key is
`"parse_error"` (carrying the two original inputs at path `["root"]`). -/
theorem c3_parse_error (parse : String → Option JSValue) (expected actual : JSValue)
    (timeElapsed cost : ℚ) (input : String)
    (h : (∃ s, expected = JSValue.str s ∧ parse s = none) ∨
         (∃ s, actual = JSValue.str s ∧ parse s = none)) :
    (evaluateTestCase parse expected actual timeElapsed cost input).isSuccess = false ∧
    (evaluateTestCase parse expected actual timeElapsed cost input).differences =
      some [⟨("parse_error"), expected, actual, [("root")], none⟩] := by
  unfold evaluateTestCase compareResponses
  rcases h with ⟨s, hes, hp⟩ | ⟨s, has, hp⟩
  · subst hes
    simp only [hp]
    cases hA : (match actual with | JSValue.str s => parse s | v => some v) <;>
      simp
  · subst has
    simp only [hp]
    cases hE : (match expected with | JSValue.str s => parse s | v => some v) <;>
      simp

/-- C3 witness: a malformed JSON string on the expected side (with a parser
that rejects it) produces a failed comparison with the single
`parse_error` difference. -/
theorem c3_witness :
    (evaluateTestCase (fun _ => none) (JSValue.str ("not json"))
        (JSValue.obj [(("a"), JSValue.num 1)]) 5 1 ("prompt")).isSuccess = false ∧
    (evaluateTestCase (fun _ => none) (JSValue.str ("not json"))
        (JSValue.obj [(("a"), JSValue.num 1)]) 5 1 ("prompt")).differences =
      some [⟨("parse_error"), JSValue.str ("not json"),
        JSValue.obj [(("a"), JSValue.num 1)], [("root")], none⟩] :=
  c3_parse_error (fun _ => none) (JSValue.str ("not json"))
    (JSValue.obj [(("a"), JSValue.num 1)]) 5 1 ("prompt")
    (Or.inl ⟨("not json"), rfl, rfl⟩)

/-! ### C8: per-field success rates -/

theorem lookup_replace_self (k : String) (v : FieldCounts) :
    ∀ m : List (String × FieldCounts), m.any (fun p => p.1 == k) = true →
    (m.map (fun p => if p.1 == k then (p.1, v) else p)).lookup k = some v := by
  intro m
  induction m with
  | nil => intro h; simp at h
  | cons p rest ih =>
      obtain ⟨a, b⟩ := p
      intro h
      by_cases hp : a = k
      · subst hp
        simp [List.lookup_cons]
      · have hrest : rest.any (fun p => p.1 == k) = true := by
          rcases List.any_eq_true.mp h with ⟨q, hq, hqk⟩
          rcases List.mem_cons.mp hq with hq1 | hq2
          · rw [hq1] at hqk
            exact absurd (by simpa using hqk) hp
          · exact List.any_eq_true.mpr ⟨q, hq2, hqk⟩
        have hkp : (k == a) = false := beq_false_of_ne (Ne.symm hp)
        simp only [List.map_cons]
        rw [if_neg (by simpa using hp)]
        rw [List.lookup_cons, hkp]
        exact ih hrest

theorem lookup_replace_other (k k' : String) (v : FieldCounts) (h : k' ≠ k) :
    ∀ m : List (String × FieldCounts),
    (m.map (fun p => if p.1 == k then (p.1, v) else p)).lookup k' = m.lookup k' := by
  intro m
  induction m with
  | nil => simp
  | cons p rest ih =>
      obtain ⟨a, b⟩ := p
      by_cases hp : a = k
      · subst hp
        have hk'a : (k' == a) = false := beq_false_of_ne h
        simp only [List.map_cons]
        rw [if_pos (by simp)]
        rw [List.lookup_cons, List.lookup_cons, hk'a]
        exact ih
      · simp only [List.map_cons]
        rw [if_neg (by simpa using hp)]
        rw [List.lookup_cons, List.lookup_cons]
        cases hk'a : (k' == a)
        · exact ih
        · rfl

theorem lookup_append_single_self (k : String) (v : FieldCounts) :
    ∀ m : List (String × FieldCounts), m.any (fun p => p.1 == k) = false →
    (m ++ [(k, v)]).lookup k = some v := by
  intro m
  induction m with
  | nil => simp [List.lookup_cons]
  | cons p rest ih =>
      obtain ⟨a, b⟩ := p
      intro h
      rw [List.any_cons] at h
      have hp : (a == k) = false := by
        cases hpk : ((a, b).1 == k) <;> simp_all
      have hrest : rest.any (fun p => p.1 == k) = false := by
        cases hr : rest.any (fun p => p.1 == k) <;> simp_all
      have hkp : (k == a) = false := by
        have : ¬(a = k) := by simpa using hp
        exact beq_false_of_ne (Ne.symm this)
      rw [List.cons_append, List.lookup_cons, hkp]
      exact ih hrest

theorem lookup_append_single_other (k k' : String) (v : FieldCounts) (h : k' ≠ k) :
    ∀ m : List (String × FieldCounts), (m ++ [(k, v)]).lookup k' = m.lookup k' := by
  intro m
  induction m with
  | nil => simp [List.lookup_cons, beq_false_of_ne h]
  | cons p rest ih =>
      obtain ⟨a, b⟩ := p
      rw [List.cons_append, List.lookup_cons, List.lookup_cons]
      cases hk'a : (k' == a)
      · exact ih
      · rfl

theorem lookup_mapSet_self (m : List (String × FieldCounts)) (k : String) (v : FieldCounts) :
    (mapSet m k v).lookup k = some v := by
  unfold mapSet
  split
  case isTrue h => exact lookup_replace_self k v m h
  case isFalse h =>
    exact lookup_append_single_self k v m (by cases hm : m.any (fun p => p.1 == k) <;> simp_all)

theorem lookup_mapSet_other (m : List (String × FieldCounts)) (k k' : String)
    (v : FieldCounts) (h : k' ≠ k) : (mapSet m k v).lookup k' = m.lookup k' := by
  unfold mapSet
  split
  case isTrue _ => exact lookup_replace_other k k' v h m
  case isFalse _ => exact lookup_append_single_other k k' v h m

theorem lookup_fieldBump_fold (b : Bool) (fields : List String) :
    ∀ (m : List (String × FieldCounts)), fields.Nodup → ∀ f : String,
    (fields.foldl (fieldBump b) m).lookup f =
      if f ∈ fields then
        some ⟨((m.lookup f).getD ⟨0, 0⟩).success + (if b then 1 else 0),
              ((m.lookup f).getD ⟨0, 0⟩).total + 1⟩
      else m.lookup f := by
  induction fields with
  | nil =>
      intro m _ f
      simp
  | cons field rest ih =>
      intro m hnd f
      have hnd' : rest.Nodup := (List.nodup_cons.mp hnd).2
      have hmem : field ∉ rest := (List.nodup_cons.mp hnd).1
      show (rest.foldl (fieldBump b) (fieldBump b m field)).lookup f = _
      by_cases hf : f = field
      · subst hf
        rw [ih (fieldBump b m f) hnd' f, if_neg hmem]
        have hself : (fieldBump b m f).lookup f =
            some ⟨((m.lookup f).getD ⟨0, 0⟩).success + (if b then 1 else 0),
                  ((m.lookup f).getD ⟨0, 0⟩).total + 1⟩ := lookup_mapSet_self m f _
        rw [hself, if_pos (List.mem_cons_self _ _)]
      · have hlk : (fieldBump b m field).lookup f = m.lookup f :=
          lookup_mapSet_other m field f _ hf
        rw [ih (fieldBump b m field) hnd' f, hlk]
        by_cases hfr : f ∈ rest
        · rw [if_pos hfr, if_pos (List.mem_cons_of_mem _ hfr)]
        · rw [if_neg hfr, if_neg (by simp [hf, hfr])]

theorem if_bool_false {α : Sort u} (a b : α) : (if (false = true) then a else b) = b := rfl

theorem if_bool_true {α : Sort u} (a b : α) : (if (true = true) then a else b) = a := rfl

theorem lookup_fieldCounts_fold (f : String) :
    ∀ (results : List TestResult) (m : List (String × FieldCounts)),
    (∀ r ∈ results, ∀ l, r.matchedFields = some l → l.Nodup) →
    (results.foldl fieldCountsStep m).lookup f =
      (if results.countP (fun r => (r.matchedFields.getD []).contains f) = 0 then
        m.lookup f
      else some ⟨((m.lookup f).getD ⟨0, 0⟩).success +
          results.countP (fun r => r.isSuccess && (r.matchedFields.getD []).contains f),
        ((m.lookup f).getD ⟨0, 0⟩).total +
          results.countP (fun r => (r.matchedFields.getD []).contains f)⟩) := by
  intro results
  induction results with
  | nil =>
      intro m _
      simp
  | cons r rest ih =>
      intro m hnd
      have hndrest : ∀ r' ∈ rest, ∀ l, r'.matchedFields = some l → l.Nodup :=
        fun r' hr' => hnd r' (List.mem_cons_of_mem _ hr')
      show (rest.foldl fieldCountsStep (fieldCountsStep m r)).lookup f = _
      rw [List.countP_cons, List.countP_cons]
      cases hmf : r.matchedFields with
      | none =>
          have hstep : fieldCountsStep m r = m := by
            unfold fieldCountsStep
            rw [hmf]
          have hcont : (((none : Option (List String)).getD []).contains f) = false := rfl
          rw [hstep, ih m hndrest, hcont]
          simp only [Bool.and_false, if_bool_false, Nat.add_zero]
      | some fields =>
          have hstep : fieldCountsStep m r = fields.foldl (fieldBump r.isSuccess) m := by
            unfold fieldCountsStep
            rw [hmf]
          have hndf : fields.Nodup := hnd r (List.mem_cons_self _ _) fields hmf
          have hinner := lookup_fieldBump_fold r.isSuccess fields m hndf f
          by_cases hf : f ∈ fields
          · have hcont : fields.contains f = true := List.elem_iff.mpr hf
            rw [if_pos hf] at hinner
            rw [hstep, ih _ hndrest, hinner]
            simp only [Option.getD_some, Option.getD_some, hcont, Bool.and_true,
              eq_self_iff_true, if_true]
            by_cases hcT : rest.countP (fun r => (r.matchedFields.getD []).contains f) = 0
            · have hcS : rest.countP
                  (fun r => r.isSuccess && (r.matchedFields.getD []).contains f) = 0 := by
                rw [List.countP_eq_zero] at hcT ⊢
                intro a ha hpa
                rcases (Bool.and_eq_true ..).mp hpa with ⟨_, hc⟩
                exact hcT a ha hc
              rw [if_pos hcT]
              simp only [hcT, hcS, Nat.zero_add]
              norm_num
            · have hX : List.countP (fun r => (r.matchedFields.getD []).contains f) rest + 1 ≠ 0 :=
                Nat.succ_ne_zero _
              rw [if_neg hcT, if_neg hX]
              simp only [Option.some.injEq, FieldCounts.mk.injEq]
              omega
          · have hcont : fields.contains f = false := by
              cases he : List.elem f fields
              · exact he
              · exact absurd (List.elem_iff.mp he) hf
            rw [if_neg hf] at hinner
            rw [hstep, ih _ hndrest, hinner]
            simp only [Option.getD_some, hcont, Bool.and_false, if_bool_false, Nat.add_zero]

/-- C8: a field appearing in some case's `matchedFields` gets a
`fieldCounts` entry whose `total` is the number of cases whose
`matchedFields` contain it and whose `success` counts only the cases among
those where the whole case succeeded; fields appearing in no case are
absent (lookup `none`); and `fieldSuccessRates` maps each entry to
`success/total`.  (`matchedFields` lists are key sets, duplicate-free as
`compareResponses` produces them.) -/
theorem c8_field_success_rates (results : List TestResult)
    (hnd : ∀ r ∈ results, ∀ l, r.matchedFields = some l → l.Nodup) (f : String) :
    ((fieldCountsOf results).lookup f =
      (if (results.filter (fun r => (r.matchedFields.getD []).contains f)).length = 0 then none
       else some ⟨(results.filter
           (fun r => r.isSuccess && (r.matchedFields.getD []).contains f)).length,
         (results.filter (fun r => (r.matchedFields.getD []).contains f)).length⟩)) ∧
    (calculateMetrics results).fieldSuccessRates.lookup f =
      ((fieldCountsOf results).lookup f).map
        (fun c => (c.success : ℚ) / (c.total : ℚ)) := by
  constructor
  · have h := lookup_fieldCounts_fold f results [] hnd
    simp only [List.countP_eq_length_filter] at h
    simpa using h
  · show ((fieldCountsOf results).map
        (fun p => (p.1, (p.2.success : ℚ) / (p.2.total : ℚ)))).lookup f = _
    induction fieldCountsOf results with
    | nil => simp
    | cons p rest ih =>
        obtain ⟨a, b⟩ := p
        rw [List.map_cons, List.lookup_cons, List.lookup_cons]
        cases hfa : (f == a)
        · exact ih
        · rfl

/-- C8 witness: two cases whose `matchedFields` both contain `"amount"`,
one overall success and one overall failure, give
`fieldSuccessRates["amount"] = 1/2` (counts 1 of 2). -/
theorem c8_witness :
    (fieldCountsOf [mkCase true true 1 1 (some [("amount")]),
        mkCase true false 1 1 (some [("amount")])]).lookup ("amount") = some ⟨1, 2⟩ ∧
    (calculateMetrics [mkCase true true 1 1 (some [("amount")]),
        mkCase true false 1 1 (some [("amount")])]).fieldSuccessRates.lookup ("amount") =
      some (1/2) := by
  have h := c8_field_success_rates
    [mkCase true true 1 1 (some [("amount")]), mkCase true false 1 1 (some [("amount")])]
    (by
      intro r hr l hl
      rcases List.mem_cons.mp hr with h1 | h1
      · rw [h1] at hl
        cases hl
        simp
      · rcases List.mem_cons.mp h1 with h2 | h2
        · rw [h2] at hl
          cases hl
          simp
        · simp at h2)
    ("amount")
  have h1 : (fieldCountsOf [mkCase true true 1 1 (some [("amount")]),
      mkCase true false 1 1 (some [("amount")])]).lookup ("amount") = some ⟨1, 2⟩ := by
    rw [h.1]
    norm_num [mkCase]
  refine ⟨h1, ?_⟩
  rw [h.2, h1]
  norm_num

/-! ### C9: recorded similarities lie in [0, 1] -/

theorem simOk_nil : simOk [] := by
  intro d hd
  simp at hd

theorem simOk_append {xs ys : List ValueDifference} (hx : simOk xs) (hy : simOk ys) :
    simOk (xs ++ ys) := by
  intro d hd q hq
  rcases List.mem_append.mp hd with h | h
  · exact hx d h q hq
  · exact hy d h q hq

theorem simOk_singleton {path : List String} {e a : JSValue} {s : Option ℚ}
    (h : ∀ q : ℚ, s = some q → 0 ≤ q ∧ q ≤ 1) : simOk [mkDiff path e a s] := by
  intro d hd q hq
  rcases List.mem_singleton.mp hd with rfl
  exact h q hq

theorem simOk_singleton_zero {path : List String} {e a : JSValue} :
    simOk [mkDiff path e a (some 0)] := by
  apply simOk_singleton
  intro q hq
  cases hq
  norm_num

theorem numSim_mem (n1 n2 : ℚ) :
    0 ≤ 1 - min (|n1 - n2| / max |n1| |n2|) 1 ∧ 1 - min (|n1 - n2| / max |n1| |n2|) 1 ≤ 1 := by
  have hx : (0 : ℚ) ≤ |n1 - n2| / max |n1| |n2| :=
    div_nonneg (abs_nonneg _) (le_trans (abs_nonneg n1) (le_max_left _ _))
  have h1 : (0 : ℚ) ≤ min (|n1 - n2| / max |n1| |n2|) 1 := le_min hx (by norm_num)
  have h2 : min (|n1 - n2| / max |n1| |n2|) 1 ≤ 1 := min_le_right _ _
  constructor <;> linarith

theorem arrSim_mem (a b : ℕ) :
    0 ≤ ((min a b : ℚ)) / ((max a b : ℚ)) ∧ ((min a b : ℚ)) / ((max a b : ℚ)) ≤ 1 := by
  rcases Nat.eq_zero_or_pos (max a b) with h | h
  · have ha : a = 0 := by omega
    have hb : b = 0 := by omega
    rw [ha, hb]
    norm_num
  · have hpos : (0 : ℚ) < (max a b : ℚ) := by exact_mod_cast h
    constructor
    · apply div_nonneg _ (le_of_lt hpos)
      have : (0 : ℕ) ≤ min a b := Nat.zero_le _
      exact_mod_cast this
    · rw [div_le_one hpos]
      have : min a b ≤ max a b := le_trans (min_le_left _ _) (le_max_left _ _)
      exact_mod_cast this

theorem objSim_mem (ek missing ak : ℕ) (h : missing ≤ ek) :
    0 ≤ ((ek : ℚ) - (missing : ℚ)) / ((max ek ak : ℚ)) ∧
    ((ek : ℚ) - (missing : ℚ)) / ((max ek ak : ℚ)) ≤ 1 := by
  have hnum0 : (0 : ℚ) ≤ (ek : ℚ) - (missing : ℚ) := by
    have : (missing : ℚ) ≤ (ek : ℚ) := by exact_mod_cast h
    linarith
  rcases Nat.eq_zero_or_pos (max ek ak) with hm | hm
  · have he : ek = 0 := by omega
    have hmi : missing = 0 := by omega
    rw [he, hmi]
    norm_num
  · have hpos : (0 : ℚ) < (max ek ak : ℚ) := by exact_mod_cast hm
    constructor
    · exact div_nonneg hnum0 (le_of_lt hpos)
    · rw [div_le_one hpos]
      have h1 : (ek : ℚ) ≤ (max ek ak : ℚ) := by
        have : ek ≤ max ek ak := le_max_left _ _
        exact_mod_cast this
      have h2 : (0 : ℚ) ≤ (missing : ℚ) := by positivity
      linarith

theorem deepCompare_simOk_all : ∀ n : ℕ,
    (∀ (e a : JSValue) (path : List String), sizeOf e ≤ n →
      simOk (deepCompare e a path).2) ∧
    (∀ (es as_ : List JSValue) (i : ℕ) (path : List String), sizeOf es ≤ n →
      simOk (deepCompareArr es as_ i path).2) ∧
    (∀ (kvs : List (String × JSValue)) (a : JSValue) (path : List String), sizeOf kvs ≤ n →
      simOk (deepCompareFields kvs a path).2) ∧
    (∀ (es : List JSValue) (i : ℕ) (a : JSValue) (path : List String), sizeOf es ≤ n →
      simOk (deepCompareIdx es i a path).2) := by
  intro n
  induction n with
  | zero =>
      refine ⟨?_, ?_, ?_, ?_⟩
      · intro e a path hsz
        exact absurd hsz (by cases e <;> simp)
      · intro es as_ i path hsz
        exact absurd hsz (by cases es <;> simp)
      · intro kvs a path hsz
        exact absurd hsz (by cases kvs <;> simp)
      · intro es i a path hsz
        exact absurd hsz (by cases es <;> simp)
  | succ n ih =>
      obtain ⟨ihC, ihA, ihF, ihI⟩ := ih
      refine ⟨?_, ?_, ?_, ?_⟩
      · -- deepCompare
        intro e a path hsz
        rw [deepCompare.eq_def]
        split
        · exact simOk_nil
        split
        · exact simOk_singleton_zero
        split
        · exact simOk_singleton_zero
        split
        · -- booleans
          split
          · exact simOk_nil
          · exact simOk_singleton_zero
        · -- numbers
          dsimp only
          split
          · exact simOk_nil
          · apply simOk_singleton
            intro q hq
            cases hq
            exact numSim_mem _ _
        · -- strings
          dsimp only
          split
          · apply simOk_singleton
            intro q hq
            cases hq
            exact calculateStringSimilarity_mem _ _
          · exact simOk_nil
        · -- arrays
          split
          · apply simOk_singleton
            intro q hq
            cases hq
            exact arrSim_mem _ _
          · apply ihA
            simp only [JSValue.arr.sizeOf_spec] at hsz
            omega
        · -- object-typed values and remaining primitives
          split
          · dsimp only
            split
            · apply simOk_singleton
              intro q hq
              cases hq
              exact objSim_mem _ _ _ (List.length_filter_le _ _)
            · split
              · apply ihF
                simp only [JSValue.obj.sizeOf_spec] at hsz
                omega
              · apply ihI
                simp only [JSValue.arr.sizeOf_spec] at hsz
                omega
              · exact simOk_nil
          · exact simOk_singleton_zero
      · -- deepCompareArr
        intro es as_ i path hsz
        cases es with
        | nil =>
            simp only [deepCompareArr]
            exact simOk_nil
        | cons e es' =>
            have hszE : sizeOf e ≤ n := by
              have : sizeOf (e :: es') = 1 + sizeOf e + sizeOf es' := by simp
              omega
            have hszR : sizeOf es' ≤ n := by
              have : sizeOf (e :: es') = 1 + sizeOf e + sizeOf es' := by simp
              omega
            cases as_ with
            | nil =>
                simp only [deepCompareArr]
                split
                · exact simOk_append (ihC _ _ _ hszE) (ihA _ _ _ _ hszR)
                · exact ihC _ _ _ hszE
            | cons a as2 =>
                simp only [deepCompareArr]
                split
                · exact simOk_append (ihC _ _ _ hszE) (ihA _ _ _ _ hszR)
                · exact ihC _ _ _ hszE
      · -- deepCompareFields
        intro kvs a path hsz
        cases kvs with
        | nil =>
            simp only [deepCompareFields]
            exact simOk_nil
        | cons kv rest =>
            obtain ⟨k, v⟩ := kv
            have hszV : sizeOf v ≤ n := by
              have h1 : sizeOf ((k, v) :: rest) = 1 + sizeOf (k, v) + sizeOf rest := by simp
              have h2 : sizeOf (k, v) = 1 + sizeOf k + sizeOf v := by simp
              omega
            have hszR : sizeOf rest ≤ n := by
              have h1 : sizeOf ((k, v) :: rest) = 1 + sizeOf (k, v) + sizeOf rest := by simp
              omega
            simp only [deepCompareFields]
            split
            · exact simOk_append (ihC _ _ _ hszV) (ihF _ _ _ hszR)
            · exact ihC _ _ _ hszV
      · -- deepCompareIdx
        intro es i a path hsz
        cases es with
        | nil =>
            simp only [deepCompareIdx]
            exact simOk_nil
        | cons e es' =>
            have hszE : sizeOf e ≤ n := by
              have : sizeOf (e :: es') = 1 + sizeOf e + sizeOf es' := by simp
              omega
            have hszR : sizeOf es' ≤ n := by
              have : sizeOf (e :: es') = 1 + sizeOf e + sizeOf es' := by simp
              omega
            simp only [deepCompareIdx]
            split
            · exact simOk_append (ihC _ _ _ hszE) (ihI _ _ _ _ hszR)
            · exact ihC _ _ _ hszE

/-- C9: for every pair of input values and every difference produced during
their comparison, a present `similarity` lies in the closed interval
`[0, 1]` — covering the number, string, array-length, object-key-set and
fallback branches of `deepCompare`. -/
theorem c9_similarity_in_unit_interval (expected actual : JSValue) (path : List String)
    (d : ValueDifference) (hd : d ∈ (deepCompare expected actual path).2)
    (q : ℚ) (hq : d.similarity = some q) : 0 ≤ q ∧ q ≤ 1 :=
  (deepCompare_simOk_all (sizeOf expected)).1 expected actual path (le_refl _) d hd q hq

/-- C9 witness: the difference recorded for `compare(100, 112)` carries
similarity `25/28`, which indeed lies in `[0, 1]`. -/
theorem c9_witness : 0 ≤ (25/28 : ℚ) ∧ (25/28 : ℚ) ≤ 1 := by
  have hmem : (⟨("root"), JSValue.num 100, JSValue.num 112, [], some (25/28)⟩ : ValueDifference) ∈
      (deepCompare (JSValue.num 100) (JSValue.num 112) []).2 := by
    have hres : (deepCompare (JSValue.num 100) (JSValue.num 112) []).2 =
        [⟨("root"), JSValue.num 100, JSValue.num 112, [], some (25/28)⟩] := by
      simp only [deepCompare, strictEq, falsy, typeofJS]
      norm_num [areNumbersClose, min_def, mkDiff, lastPathKey]
    rw [hres]
    exact List.mem_singleton.mpr rfl
  exact c9_similarity_in_unit_interval (JSValue.num 100) (JSValue.num 112) []
    ⟨("root"), JSValue.num 100, JSValue.num 112, [], some (25/28)⟩ hmem (25/28) rfl
